import Mathlib

/-!
Verification development for the quantum-circuit module
(`src/qutip_qip/circuit.py`): shallow embedding of the gate / measurement /
program data model, the universal-basis resolver (`resolve_gates` with its
per-gate rewrite rules and the two-qubit basis transformer), the adjacency
linearizer (`adjacent_gates`), and the stepwise circuit simulator
(`CircuitSimulator` with `CircuitResult`), together with theorems settling
the specification claims about them.

Conventions used throughout:
* Python exceptions become an explicit error type `PyExc` threaded through
  `Except`; message strings keep the source text (line-continuation
  whitespace normalized).
* Rotation angles are real numbers (`ℝ`); the source's float arithmetic on
  angles is modelled exactly.
* Probabilities are modelled as exact rationals (`ℚ`); the claims settled
  here are about control flow and data flow, not float rounding.
* The external linear-algebra engine (gate matrices, `measurement_statistics`,
  operator expansion — `qutip` and the `operations` module, which the spec
  lists as external collaborators) is abstracted as a `QEngine` record; the
  1-qubit gate matrices needed to settle the phase-tracking claim are given
  their standard definitions over `ℂ`.
-/

namespace QutipQip

/-- Closed enumeration of the structural gate names appearing in the module,
plus `user` for arbitrary user-defined gate names (the source dispatches on
the name string). -/
inductive GName where
  | X | Y | Z
  | RX | RY | RZ | IDLE
  | SQRTNOT | SNOT | PHASEGATE
  | CNOT | CSIGN | SWAP | ISWAP | SQRTSWAP | SQRTISWAP
  | BERKELEY | SWAPalpha
  | FREDKIN | TOFFOLI
  | GLOBALPHASE
  | user (s : String)
deriving DecidableEq, Repr

/-- Rendering of a gate name, used in exception messages
(mirrors `str(gate.name)` in the source). -/
def GName.str : GName → String
  | .X => "X" | .Y => "Y" | .Z => "Z"
  | .RX => "RX" | .RY => "RY" | .RZ => "RZ" | .IDLE => "IDLE"
  | .SQRTNOT => "SQRTNOT" | .SNOT => "SNOT" | .PHASEGATE => "PHASEGATE"
  | .CNOT => "CNOT" | .CSIGN => "CSIGN" | .SWAP => "SWAP"
  | .ISWAP => "ISWAP" | .SQRTSWAP => "SQRTSWAP" | .SQRTISWAP => "SQRTISWAP"
  | .BERKELEY => "BERKELEY" | .SWAPalpha => "SWAPalpha"
  | .FREDKIN => "FREDKIN" | .TOFFOLI => "TOFFOLI"
  | .GLOBALPHASE => "GLOBALPHASE"
  | .user s => s

/-- Embedding of the `Gate` data model (class `Gate` of the `operations`
module, as constructed and consumed by `circuit.py`): name, ordered target
list, ordered control list, optional rotation angle, optional
classical-control bit indices and optional required combined bit-value.
The display label (`arg_label`, `latex_str`) is irrelevant to the semantics
and is omitted. -/
structure Gate where
  name : GName
  targets : List Nat := []
  controls : List Nat := []
  arg_value : Option ℝ := none
  classical_controls : List Nat := []
  classical_control_value : Option Nat := none

/-- Embedding of class `Measurement` (`circuit.py` lines 42-149): name,
target qubits, optional classical store index. -/
structure Measurement where
  name : String
  targets : List Nat := []
  classical_store : Option Nat := none

/-- One entry of `QubitCircuit.gates`: the source keeps a heterogeneous list
of `Gate` and `Measurement` objects. -/
inductive CircuitOp where
  | gate (g : Gate)
  | measurement (m : Measurement)

/-- Embedding of class `QubitCircuit` restricted to the fields the core
semantics reads: qubit count `N`, the ordered operation list, and the
classical-bit count.  (`reverse_states`, `dims`, `user_gates` and the
input/output state labels do not enter the claims settled here.) -/
structure QubitCircuit where
  N : Nat
  gates : List CircuitOp := []
  num_cbits : Nat := 0

/-- Python exceptions raised by the embedded code paths. -/
inductive PyExc where
  | notImplementedError (msg : String)
  | valueError (msg : String)
  | typeError (msg : String)
  | indexError
deriving DecidableEq, Repr

/-- Message of the measurement-ordering check shared (verbatim, including the
copy-pasted function name) by `resolve_gates` (lines 1443-1446) and
`adjacent_gates` (lines 1623-1626); the line-continuation whitespace of the
source literal is normalized to one space. -/
def seqMsg : String :=
  "adjacent_gates must be called before measurements are added to the circuit"

/-- The spec's error taxonomy calls the measurement-ordering failure
`SequencingError`; in the source it is this `NotImplementedError`. -/
def SequencingError : PyExc := .notImplementedError seqMsg

/-- `num_measurements` as computed at `resolve_gates` lines 1439-1441,
`adjacent_gates` lines 1619-1621 and `run_statistics` lines 2434-2436. -/
def countMeasurements (ops : List CircuitOp) : Nat :=
  (ops.filter fun op => match op with
    | .measurement _ => true
    | .gate _ => false).length

/-- Python list indexing `l[i]`: raises `IndexError` when out of range. -/
def pyIdx {α : Type} (l : List α) (i : Nat) : Except PyExc α :=
  match l.get? i with
  | some a => .ok a
  | none => .error .indexError

/-- Shorthand for a fresh rotation/phase gate as built by the rewrite rules
(`Gate(name, targets, None, arg_value=θ, arg_label=...)`). -/
def mkRot (n : GName) (t : List Nat) (θ : ℝ) : Gate :=
  { name := n, targets := t, arg_value := some θ }

/-- Shorthand for `Gate("GLOBALPHASE", None, None, arg_value=θ, ...)`. -/
def mkGP (θ : ℝ) : Gate := { name := .GLOBALPHASE, arg_value := some θ }

/-- Shorthand for `Gate("CNOT", targets, controls)`. -/
def mkCNOT (t c : List Nat) : Gate := { name := .CNOT, targets := t, controls := c }

/-! ## Universal basis resolver (`QubitCircuit.resolve_gates`, lines 1408-1592,
with the per-gate rules `_resolve_to_universal` / `_gate_*`, lines 564-1002,
and the two-qubit basis transformer `_resolve_2q_basis` / `_basis_*`,
lines 1004-1293). -/

/-- `_gate_SQRTNOT` (lines 581-599). -/
noncomputable def gateRuleSQRTNOT (g : Gate) : List Gate :=
  [mkGP (Real.pi / 4), mkRot .RX g.targets (Real.pi / 2)]

/-- `_gate_SNOT` (lines 601-619). -/
noncomputable def gateRuleSNOT (g : Gate) : List Gate :=
  [mkGP (Real.pi / 2), mkRot .RY g.targets (Real.pi / 2), mkRot .RX g.targets Real.pi]

/-- `_gate_PHASEGATE` (lines 621-633); `gate.arg_value / 2` fails with a
`TypeError` when the angle is absent (`None / 2` in Python). -/
noncomputable def gateRulePHASEGATE (g : Gate) : Except PyExc (List Gate) :=
  match g.arg_value with
  | some θ =>
      .ok [mkGP (θ / 2), mkRot .RZ g.targets θ]
  | none => .error (.typeError "unsupported operand type for division: NoneType")

/-- `_gate_CSIGN` (lines 643-664). -/
noncomputable def gateRuleCSIGN (g : Gate) : List Gate :=
  [mkRot .RY g.targets (Real.pi / 2), mkRot .RX g.targets Real.pi,
   mkCNOT g.targets g.controls,
   mkRot .RY g.targets (Real.pi / 2), mkRot .RX g.targets Real.pi,
   mkGP Real.pi]

/-- `_gate_SWAP` (lines 666-669). -/
def gateRuleSWAP (t0 t1 : Nat) : List Gate :=
  [mkCNOT [t0] [t1], mkCNOT [t1] [t0], mkCNOT [t0] [t1]]

/-- `_gate_ISWAP` (lines 671-734). -/
noncomputable def gateRuleISWAP (t0 t1 : Nat) : List Gate :=
  [mkCNOT [t0] [t1], mkCNOT [t1] [t0], mkCNOT [t0] [t1],
   mkRot .RZ [t0] (Real.pi / 2), mkRot .RZ [t1] (Real.pi / 2),
   mkRot .RY [t0] (Real.pi / 2), mkRot .RX [t0] Real.pi,
   mkCNOT [t0] [t1],
   mkRot .RY [t0] (Real.pi / 2), mkRot .RX [t0] Real.pi,
   mkGP Real.pi, mkGP (Real.pi / 2)]

/-- `_gate_FREDKIN` (lines 736-866); `c` is the whole control list, passed
through unindexed by the source. -/
noncomputable def gateRuleFREDKIN (t0 t1 : Nat) (c : List Nat) : List Gate :=
  [mkCNOT [t0] [t1],
   mkRot .RZ [t1] Real.pi,
   mkRot .RX [t1] (Real.pi / 2),
   mkRot .RZ [t1] (-(Real.pi / 2)),
   mkRot .RX [t1] (Real.pi / 2),
   mkRot .RZ [t1] Real.pi,
   mkCNOT [t1] [t0],
   mkRot .RZ [t1] (-(Real.pi / 4)),
   mkCNOT [t1] c,
   mkRot .RZ [t1] (Real.pi / 4),
   mkCNOT [t1] [t0],
   mkRot .RZ [t0] (Real.pi / 4),
   mkRot .RZ [t1] (-(Real.pi / 4)),
   mkCNOT [t1] c,
   mkCNOT [t0] c,
   mkRot .RZ c (Real.pi / 4),
   mkRot .RZ [t0] (-(Real.pi / 4)),
   mkCNOT [t0] c,
   mkRot .RZ [t1] (-(3 * Real.pi / 4)),
   mkRot .RX [t1] (Real.pi / 2),
   mkRot .RZ [t1] (-(Real.pi / 2)),
   mkRot .RX [t1] (Real.pi / 2),
   mkRot .RZ [t1] Real.pi,
   mkCNOT [t0] [t1],
   mkGP (Real.pi / 8)]

/-- `_gate_TOFFOLI` (lines 868-991); `t` is the whole target list, passed
through unindexed by the source. -/
noncomputable def gateRuleTOFFOLI (c0 c1 : Nat) (t : List Nat) : List Gate :=
  [mkGP (Real.pi / 8),
   mkRot .RZ [c1] (Real.pi / 2),
   mkRot .RZ [c0] (Real.pi / 4),
   mkCNOT [c1] [c0],
   mkRot .RZ [c1] (-(Real.pi / 4)),
   mkCNOT [c1] [c0],
   mkGP (Real.pi / 2),
   mkRot .RY t (Real.pi / 2),
   mkRot .RX t Real.pi,
   mkRot .RZ [c1] (-(Real.pi / 4)),
   mkRot .RZ t (Real.pi / 4),
   mkCNOT t [c0],
   mkRot .RZ t (-(Real.pi / 4)),
   mkCNOT t [c1],
   mkRot .RZ t (Real.pi / 4),
   mkCNOT t [c0],
   mkRot .RZ t (-(Real.pi / 4)),
   mkCNOT t [c1],
   mkGP (Real.pi / 2),
   mkRot .RY t (Real.pi / 2),
   mkRot .RX t Real.pi]

/-- `_resolve_to_universal` (lines 564-573) with the `_gate_*` rule table:
a gate whose name is in the requested two-qubit basis passes through, as does
`SWAP` when `ISWAP` is in the two-qubit basis; otherwise the per-name rule is
applied.  A name with no `_gate_` method raises the `AttributeError` that
`resolve_gates` converts to `NotImplementedError "Gate ... cannot be
resolved."` (lines 1481-1487), and `BERKELEY`/`SWAPalpha`/`SQRTSWAP`/
`SQRTISWAP` hit `_gate_NOTIMPLEMENTED` (lines 635-641). -/
noncomputable def resolveToUniversal (basis_2q : List GName) (g : Gate) : Except PyExc (List Gate) :=
  if g.name ∈ basis_2q then .ok [g]
  else if g.name = .SWAP ∧ .ISWAP ∈ basis_2q then .ok [g]
  else
    match g.name with
    | .RX | .RY | .RZ | .IDLE | .CNOT => .ok [g]
    | .GLOBALPHASE =>
        .ok [{ name := .GLOBALPHASE, targets := g.targets, controls := g.controls,
               arg_value := g.arg_value }]
    | .SQRTNOT => .ok (gateRuleSQRTNOT g)
    | .SNOT => .ok (gateRuleSNOT g)
    | .PHASEGATE => gateRulePHASEGATE g
    | .CSIGN => .ok (gateRuleCSIGN g)
    | .SWAP => do
        let t0 ← pyIdx g.targets 0
        let t1 ← pyIdx g.targets 1
        .ok (gateRuleSWAP t0 t1)
    | .ISWAP => do
        let t0 ← pyIdx g.targets 0
        let t1 ← pyIdx g.targets 1
        .ok (gateRuleISWAP t0 t1)
    | .FREDKIN => do
        let t0 ← pyIdx g.targets 0
        let t1 ← pyIdx g.targets 1
        .ok (gateRuleFREDKIN t0 t1 g.controls)
    | .TOFFOLI => do
        let c0 ← pyIdx g.controls 0
        let c1 ← pyIdx g.controls 1
        .ok (gateRuleTOFFOLI c0 c1 g.targets)
    | .BERKELEY | .SWAPalpha | .SQRTSWAP | .SQRTISWAP =>
        .error (.notImplementedError "Cannot be resolved in this basis")
    | n => .error (.notImplementedError ("Gate " ++ n.str ++ " cannot be resolved."))

/-- One iteration of the `resolve_gates` per-gate loop (lines 1475-1487):
the `X`/`Y`/`Z` pre-pass appends a `GLOBALPHASE(π/2)` to `qc_temp.gates`
(first component) and replaces the gate by the corresponding `π`-rotation
(dropping controls and classical controls, as `Gate("R"+name,
targets=gate.targets, arg_value=np.pi)` does) before dispatching; everything
else goes to `temp_resolved` (second component). -/
noncomputable def universalStep (basis_2q : List GName) (g : Gate) :
    Except PyExc (List Gate × List Gate) :=
  match g.name with
  | .X => (resolveToUniversal basis_2q (mkRot .RX g.targets Real.pi)).map
      fun l => ([mkGP (Real.pi / 2)], l)
  | .Y => (resolveToUniversal basis_2q (mkRot .RY g.targets Real.pi)).map
      fun l => ([mkGP (Real.pi / 2)], l)
  | .Z => (resolveToUniversal basis_2q (mkRot .RZ g.targets Real.pi)).map
      fun l => ([mkGP (Real.pi / 2)], l)
  | _ => (resolveToUniversal basis_2q g).map fun l => ([], l)

/-- Per-gate accumulation of the `resolve_gates` loop over the whole program:
first component collects the `X`/`Y`/`Z` pre-pass `GLOBALPHASE(π/2)` gates
appended to `qc_temp.gates`, second component is `temp_resolved`.
A `Measurement` cannot reach this loop (the measurement check precedes it);
if it did, the dispatch `getattr(self, "_gate_" + str(gate.name))` would fail
and surface as `NotImplementedError` (lines 1485-1487). -/
noncomputable def universalAll (basis_2q : List GName) :
    List CircuitOp → Except PyExc (List Gate × List Gate)
  | [] => .ok ([], [])
  | .gate g :: rest => do
      let (pre, seg) ← universalStep basis_2q g
      let (preR, segR) ← universalAll basis_2q rest
      .ok (pre ++ preR, seg ++ segR)
  | .measurement m :: _ =>
      .error (.notImplementedError ("Gate " ++ m.name ++ " cannot be resolved."))

/-- `_basis_CSIGN` (lines 1009-1035), one gate of `temp_resolved`. -/
noncomputable def basisStepCSIGN (g : Gate) : List Gate :=
  if g.name = .CNOT then
    [mkRot .RY g.targets (-(Real.pi / 2)),
     { name := .CSIGN, targets := g.targets, controls := g.controls },
     mkRot .RY g.targets (Real.pi / 2)]
  else [g]

/-- `_basis_ISWAP` (lines 1037-1145), one gate of `temp_resolved`; the
`CNOT` branch indexes `gate.controls[0]` and `gate.targets[0]`, the `SWAP`
branch indexes `gate.targets[0]` and `gate.targets[1]`. -/
noncomputable def basisStepISWAP (g : Gate) : Except PyExc (List Gate) :=
  if g.name = .CNOT then do
    let c0 ← pyIdx g.controls 0
    let t0 ← pyIdx g.targets 0
    .ok [mkGP (Real.pi / 4),
         { name := .ISWAP, targets := [c0, t0] },
         mkRot .RZ g.targets (-(Real.pi / 2)),
         mkRot .RY g.controls (-(Real.pi / 2)),
         mkRot .RZ g.controls (Real.pi / 2),
         { name := .ISWAP, targets := [c0, t0] },
         mkRot .RY g.targets (-(Real.pi / 2)),
         mkRot .RZ g.targets (Real.pi / 2)]
  else if g.name = .SWAP then do
    let t0 ← pyIdx g.targets 0
    let t1 ← pyIdx g.targets 1
    .ok [mkGP (Real.pi / 4),
         { name := .ISWAP, targets := g.targets },
         mkRot .RX [t0] (-(Real.pi / 2)),
         { name := .ISWAP, targets := g.targets },
         mkRot .RX [t1] (-(Real.pi / 2)),
         { name := .ISWAP, targets := [t1, t0] },
         mkRot .RX [t0] (-(Real.pi / 2))]
  else .ok [g]

/-- `_basis_SQRTSWAP` (lines 1147-1203), one gate of `temp_resolved`. -/
noncomputable def basisStepSQRTSWAP (g : Gate) : Except PyExc (List Gate) :=
  if g.name = .CNOT then do
    let c0 ← pyIdx g.controls 0
    let t0 ← pyIdx g.targets 0
    .ok [mkRot .RY g.targets (Real.pi / 2),
         { name := .SQRTSWAP, targets := [c0, t0] },
         mkRot .RZ g.controls Real.pi,
         { name := .SQRTSWAP, targets := [c0, t0] },
         mkRot .RZ g.targets (-(Real.pi / 2)),
         mkRot .RY g.targets (-(Real.pi / 2)),
         mkRot .RZ g.controls (-(Real.pi / 2))]
  else .ok [g]

/-- `_basis_SQRTISWAP` (lines 1205-1293), one gate of `temp_resolved`. -/
noncomputable def basisStepSQRTISWAP (g : Gate) : Except PyExc (List Gate) :=
  if g.name = .CNOT then do
    let c0 ← pyIdx g.controls 0
    let t0 ← pyIdx g.targets 0
    .ok [mkRot .RY g.controls (-(Real.pi / 2)),
         mkRot .RX g.controls (Real.pi / 2),
         mkRot .RX g.targets (-(Real.pi / 2)),
         { name := .SQRTISWAP, targets := [c0, t0] },
         mkRot .RX g.controls Real.pi,
         { name := .SQRTISWAP, targets := [c0, t0] },
         mkRot .RY g.controls (Real.pi / 2),
         mkGP (Real.pi / 4),
         mkRot .RZ g.controls Real.pi,
         mkGP (3 * (Real.pi / 2))]
  else .ok [g]

/-- `_resolve_2q_basis` (lines 1004-1007): appends, for every gate of
`temp_resolved`, its replacement under the selected basis to
`qc_temp.gates`. -/
noncomputable def convert2q (u : GName) : List Gate → Except PyExc (List Gate)
  | [] => .ok []
  | g :: rest => do
      let seg ←
        match u with
        | .CSIGN => .ok (basisStepCSIGN g)
        | .ISWAP => basisStepISWAP g
        | .SQRTSWAP => basisStepSQRTSWAP g
        | .SQRTISWAP => basisStepSQRTISWAP g
        | _ => .ok [g]
      let segR ← convert2q u rest
      .ok (seg ++ segR)

/-- One gate of the final two-axis rewriting pass of `resolve_gates`
(lines 1502-1588): a rotation about an axis not in `basis_1q` becomes three
rotations, the outer two at `∓π/2` about one permitted axis and the middle
one carrying `gate.arg_value` about the other. -/
noncomputable def eulerStep (basis_1q : List GName) (g : Gate) : List Gate :=
  if g.name = .RX ∧ .RX ∉ basis_1q then
    [mkRot .RY g.targets (-(Real.pi / 2)),
     { name := .RZ, targets := g.targets, arg_value := g.arg_value },
     mkRot .RY g.targets (Real.pi / 2)]
  else if g.name = .RY ∧ .RY ∉ basis_1q then
    [mkRot .RZ g.targets (-(Real.pi / 2)),
     { name := .RX, targets := g.targets, arg_value := g.arg_value },
     mkRot .RZ g.targets (Real.pi / 2)]
  else if g.name = .RZ ∧ .RZ ∉ basis_1q then
    [mkRot .RX g.targets (-(Real.pi / 2)),
     { name := .RY, targets := g.targets, arg_value := g.arg_value },
     mkRot .RX g.targets (Real.pi / 2)]
  else [g]

/-- The final pass of `resolve_gates` (lines 1498-1588), run only when the
one-qubit basis has exactly two entries. -/
noncomputable def eulerPass (basis_1q : List GName) (l : List Gate) : List Gate :=
  l.flatMap (eulerStep basis_1q)

/-- `basis_1q_valid` (line 1436). -/
def basis1qValid : List GName := [.RX, .RY, .RZ, .IDLE]

/-- `basis_2q_valid` (line 1437). -/
def basis2qValid : List GName := [.CNOT, .CSIGN, .ISWAP, .SQRTSWAP, .SQRTISWAP]

/-- The basis argument of `resolve_gates`: either a list of gate names or a
single two-qubit gate name (`isinstance(basis, list)` dispatch, line 1448). -/
inductive BasisArg where
  | list (l : List GName)
  | single (g : GName)

/-- The scan of a list-shaped basis request (lines 1449-1460): each token is
routed to the two-qubit or one-qubit bucket in encounter order, and an
unrecognized token raises immediately. -/
def scanBasis : List GName → Except PyExc (List GName × List GName)
  | [] => .ok ([], [])
  | g :: rest =>
      if g ∈ basis2qValid then
        (scanBasis rest).map fun p => (p.1, g :: p.2)
      else if g ∈ basis1qValid then
        (scanBasis rest).map fun p => (g :: p.1, p.2)
      else
        .error (.notImplementedError (g.str ++ " is not a valid basis gate"))

/-- Basis validation of `resolve_gates` (lines 1448-1473): scan (for a list)
or single-token check, then the singleton / empty one-qubit-bucket rules. -/
def validateBasis : BasisArg → Except PyExc (List GName × List GName)
  | .list l =>
      match scanBasis l with
      | .error e => .error e
      | .ok (b1, b2) =>
          if b1.length = 1 then
            .error (.valueError "Not sufficient single-qubit gates in basis")
          else if b1.length = 0 then
            .ok ([.RX, .RY, .RZ], b2)
          else
            .ok (b1, b2)
  | .single g =>
      if g ∈ basis2qValid then
        .ok ([.RX, .RY, .RZ], [g])
      else
        .error (.valueError (g.str ++ " is not a valid two-qubit basis gate"))

/-- The two-qubit conversion selection of `resolve_gates` (lines 1489-1494):
the first of `CSIGN, ISWAP, SQRTSWAP, SQRTISWAP` present in `basis_2q`. -/
def firstConvBasis (basis_2q : List GName) : Option GName :=
  ([.CSIGN, .ISWAP, .SQRTSWAP, .SQRTISWAP] : List GName).find? (· ∈ basis_2q)

/-- `QubitCircuit.resolve_gates` (lines 1408-1592).  Pipeline: measurement
check, basis validation, per-gate universal resolution (with the `X`/`Y`/`Z`
pre-pass appending `GLOBALPHASE(π/2)` to `qc_temp.gates`), two-qubit basis
conversion, and the two-axis final pass.  Note that when no conversion basis
matches, line 1496 (`qc_temp.gates = temp_resolved`) discards the pre-pass
`GLOBALPHASE` gates accumulated in `qc_temp.gates`. -/
noncomputable def resolve_gates (qc : QubitCircuit) (basis : BasisArg) :
    Except PyExc QubitCircuit :=
  if 0 < countMeasurements qc.gates then
    .error (.notImplementedError seqMsg)
  else do
    let (b1, b2) ← validateBasis basis
    let (pre, res) ← universalAll b2 qc.gates
    let afterConv ←
      match firstConvBasis b2 with
      | some u => (convert2q u res).map fun conv => pre ++ conv
      | none => .ok res
    let finalGates := if b1.length = 2 then eulerPass b1 afterConv else afterConv
    .ok { N := qc.N, gates := finalGates.map .gate, num_cbits := qc.num_cbits }

/-! ## Adjacency linearizer (`QubitCircuit.adjacent_gates`, lines 1594-1717). -/

/-- Shorthand for `Gate("SWAP", targets=[a, b])`. -/
def swapG (a b : Nat) : Gate := { name := .SWAP, targets := [a, b] }

/-- The window-sliding loop of `adjacent_gates` for `CNOT`/`CSIGN`
(lines 1632-1681).  `cEnd` records `end == gate.controls[0]`.  The Python
`while i < end` loop advances `i` by 1 or 2 per iteration; here it is driven
by a fuel argument, called with fuel `e - i`, which bounds the iteration
count (each iteration consumes one unit and advances `i` by at least one), so
the fuel never runs out before `i` reaches `e`. -/
def adjLoopCN (name : GName) (cEnd : Bool) (s e : Nat) : Nat → Nat → List Gate
  | _, 0 => []
  | i, fuel + 1 =>
    if i < e then
      if (s : ℤ) + e - i - i = 1 ∧ (e - s + 1) % 2 = 0 then
        (if cEnd then { name := name, targets := [i], controls := [i + 1] }
         else { name := name, targets := [i + 1], controls := [i] }) ::
        adjLoopCN name cEnd s e (i + 1) fuel
      else if (s : ℤ) + e - i - i = 2 ∧ (e - s + 1) % 2 = 1 then
        swapG i (i + 1) ::
        (if cEnd then { name := name, targets := [i + 1], controls := [i + 2] }
         else { name := name, targets := [i + 2], controls := [i + 1] }) ::
        swapG i (i + 1) ::
        adjLoopCN name cEnd s e (i + 2) fuel
      else
        swapG i (i + 1) :: swapG (s + e - i - 1) (s + e - i) ::
        adjLoopCN name cEnd s e (i + 1) fuel
    else []

/-- The window-sliding loop of `adjacent_gates` for the symmetric two-qubit
gates (lines 1683-1707), fuel-driven like `adjLoopCN`. -/
def adjLoopSW (name : GName) (s e : Nat) : Nat → Nat → List Gate
  | _, 0 => []
  | i, fuel + 1 =>
    if i < e then
      if (s : ℤ) + e - i - i = 1 ∧ (e - s + 1) % 2 = 0 then
        { name := name, targets := [i, i + 1] } :: adjLoopSW name s e (i + 1) fuel
      else if (s : ℤ) + e - i - i = 2 ∧ (e - s + 1) % 2 = 1 then
        swapG i (i + 1) ::
        { name := name, targets := [i + 1, i + 2] } ::
        swapG i (i + 1) ::
        adjLoopSW name s e (i + 2) fuel
      else
        swapG i (i + 1) :: swapG (s + e - i - 1) (s + e - i) ::
        adjLoopSW name s e (i + 1) fuel
    else []

/-- `swap_gates` (lines 1611-1618). -/
def swapGates : List GName :=
  [.SWAP, .ISWAP, .SQRTISWAP, .SQRTSWAP, .BERKELEY, .SWAPalpha]

/-- The per-gate dispatch of the `adjacent_gates` loop (lines 1628-1713);
the indexing of `gate.targets[0]` / `gate.controls[0]` (and `targets[1]` for
the symmetric gates) raises `IndexError` when the list is too short. -/
def adjacentStep (g : Gate) : Except PyExc (List Gate) :=
  if g.name = .CNOT ∨ g.name = .CSIGN then
    match g.targets.get? 0, g.controls.get? 0 with
    | some t, some c =>
        .ok (adjLoopCN g.name (decide (max t c = c)) (min t c) (max t c)
          (min t c) (max t c - min t c))
    | _, _ => .error .indexError
  else if g.name ∈ swapGates then
    match g.targets.get? 0, g.targets.get? 1 with
    | some t0, some t1 =>
        .ok (adjLoopSW g.name (min t0 t1) (max t0 t1)
          (min t0 t1) (max t0 t1 - min t0 t1))
    | _, _ => .error .indexError
  else
    .error (.notImplementedError
      ("`adjacent_gates` is not defined for gate " ++ g.name.str ++ "."))

/-- The `adjacent_gates` loop over the whole program.  A `Measurement` cannot
reach it (the measurement check precedes it); if it did, its name would fall
to the final `else` branch of the dispatch. -/
def adjAll : List CircuitOp → Except PyExc (List Gate)
  | [] => .ok []
  | .gate g :: rest => do
      let seg ← adjacentStep g
      let segR ← adjAll rest
      .ok (seg ++ segR)
  | .measurement m :: _ =>
      .error (.notImplementedError
        ("`adjacent_gates` is not defined for gate " ++ m.name ++ "."))

/-- `QubitCircuit.adjacent_gates` (lines 1594-1717): measurement check, then
the per-gate window-sliding rewrite. -/
def adjacent_gates (qc : QubitCircuit) : Except PyExc QubitCircuit :=
  if 0 < countMeasurements qc.gates then
    .error (.notImplementedError seqMsg)
  else
    (adjAll qc.gates).map fun gs =>
      { N := qc.N, gates := gs.map .gate, num_cbits := qc.num_cbits }

/-! ## Circuit simulator (`CircuitSimulator`, lines 2150-2553, and
`CircuitResult`, lines 2054-2147).

The external linear-algebra engine (`qutip` `Qobj` arithmetic,
`measurement_statistics` via `Measurement.measurement_comp_basis`, `ket2dm`)
is abstracted as a `QEngine` record over an abstract state type `Q`; the
simulator embedding is proved correct for every engine, matching the spec's
treatment of the engine as an external collaborator.  `measureStats` returns
the candidate collapsed states (`None` for an unreachable outcome, as
`measurement_statistics` does) and their probabilities.  `zeroQ`, `addQ`,
`smulQ` model the Python `sum(p * s for ...)` arithmetic used by the
density-matrix measurement branch. -/

structure QEngine (Q : Type) where
  applyU : Q → Q → Q
  applyDM : Q → Q → Q
  ket2dm : Q → Q
  isKet : Q → Bool
  measureStats : Measurement → Q → List (Option Q) × List ℚ
  zeroQ : Q
  addQ : Q → Q → Q
  smulQ : ℚ → Q → Q

/-- The two simulation modes accepted by `CircuitSimulator`
(`"state_vector_simulator"` and `"density_matrix_simulator"`); any other
mode string raises `NotImplementedError` at use (lines 2493-2496), which
the closed enumeration leaves out of the model. -/
inductive SimMode where
  | stateVector
  | densityMatrix
deriving DecidableEq, Repr

/-- One compiled operation of `self.ops` as built by `_process_ops`
(lines 2228-2244): a bare unitary, a classically-controlled `(gate, unitary)`
pair, or a measurement. -/
inductive SimOp (Q : Type) where
  | unitary (u : Q)
  | conditioned (g : Gate) (u : Q)
  | measure (m : Measurement)

/-- `_process_ops` (lines 2228-2244): walk the program, pairing each
non-measurement gate with the next entry of `U_list`;
running out of `U_list` entries is an `IndexError`. -/
def processOps {Q : Type} : List CircuitOp → List Q → Except PyExc (List (SimOp Q))
  | [], _ => .ok []
  | .measurement m :: rest, us =>
      (processOps rest us).map fun ops => .measure m :: ops
  | .gate g :: rest, u :: us =>
      (processOps rest us).map fun ops =>
        (if g.classical_controls ≠ [] then .conditioned g u else .unitary u) :: ops
  | .gate _ :: _, [] => .error .indexError

/-- The mutable session state of one `CircuitSimulator` instance
(assigned by `initialize`, lines 2311-2351).  `rand_ind` is the model's
cursor into the process-wide random stream consumed by
`np.random.choice` (line 2540). -/
structure SimState (Q : Type) where
  state : Option Q
  probability : ℚ
  cbits : Option (List Nat)
  op_index : Nat
  measure_results : Option (List Nat)
  measure_ind : Nat
  rand_ind : Nat
deriving DecidableEq

/-- `CircuitSimulator.initialize` (lines 2311-2351).  Note the Python
truthiness test `if cbits and len(cbits) == self.qc.num_cbits`: a supplied
list of the wrong length (or an empty list) is silently replaced by the
all-zero vector when the circuit declares classical bits, and by `None`
otherwise. -/
def initRun {Q : Type} (eng : QEngine Q) (mode : SimMode) (num_cbits : Nat)
    (state : Option Q) (cbits : Option (List Nat))
    (measure_results : Option (List Nat)) : SimState Q :=
  { cbits :=
      match cbits with
      | some l =>
          if l ≠ [] ∧ l.length = num_cbits then some l
          else if 0 < num_cbits then some (List.replicate num_cbits 0) else none
      | none => if 0 < num_cbits then some (List.replicate num_cbits 0) else none
    state :=
      match state with
      | none => none
      | some st =>
          some (if mode = .densityMatrix ∧ eng.isKet st then eng.ket2dm st else st)
    probability := 1
    op_index := 0
    measure_results := measure_results
    measure_ind := 0
    rand_ind := 0 }

/-- `_evolve_state` / `_evolve_ket` / `_evolve_dm` (lines 2479-2520):
left-multiply in state-vector mode, conjugate in density-matrix mode.
A `None` state would make the Python `U * self.state` raise. -/
def evolveState {Q : Type} (eng : QEngine Q) (mode : SimMode) (u : Q)
    (s : SimState Q) : Except PyExc (SimState Q) :=
  match s.state with
  | none => .error (.typeError "unsupported operand: Qobj * NoneType")
  | some st =>
      let st' :=
        match mode with
        | .stateVector => eng.applyU u st
        | .densityMatrix => eng.applyDM u st
      .ok { s with state := some st' }

/-- The evaluation of `all([self.cbits[i] for i in operation.classical_controls])`
(lines 2464-2466): the comprehension indexes every listed classical bit
(raising `IndexError` if any is out of range) and the gate is applied iff
all of them are non-zero.  The gate's `classical_control_value` is never
consulted here. -/
def cbitsAll (cb : List Nat) (idxs : List Nat) : Except PyExc Bool :=
  if idxs.all fun i => decide (i < cb.length) then
    .ok (idxs.all fun i => decide (cb.getD i 0 ≠ 0))
  else .error .indexError

/-- The tail of the state-vector measurement branch (lines 2541-2544):
`self.probability *= probabilities[i]`, `self.state = states[i]` (which may
be `None` for an unreachable forced outcome), and the classical store
update. -/
def svFinish {Q : Type} (states : List (Option Q)) (probs : List ℚ) (i : Nat)
    (m : Measurement) (s : SimState Q) : Except PyExc (SimState Q) :=
  match pyIdx probs i with
  | .error e => .error e
  | .ok p =>
      match pyIdx states i with
      | .error e => .error e
      | .ok st =>
          match m.classical_store with
          | none => .ok { s with probability := s.probability * p, state := st }
          | some cs =>
              match s.cbits with
              | none =>
                  .error (.typeError "NoneType object does not support item assignment")
              | some cb =>
                  if cs < cb.length then
                    .ok { s with
                          probability := s.probability * p
                          state := st
                          cbits := some (cb.set cs i) }
                  else .error .indexError

/-- The sampling branch of the state-vector measurement (lines 2538-2540):
renormalize the two-outcome distribution and draw from the process-wide
random source (`np.random.choice([0, 1], p=probabilities)`), modelled as one
boolean consumed from the `rng` stream at cursor `rand_ind`. -/
def svRandom {Q : Type} (states : List (Option Q)) (probs : List ℚ)
    (rng : Nat → Bool) (m : Measurement) (s : SimState Q) :
    Except PyExc (SimState Q) :=
  svFinish states (probs.map fun p => p / probs.sum)
    (if rng s.rand_ind then 1 else 0) m { s with rand_ind := s.rand_ind + 1 }

/-- `_apply_measurement` (lines 2522-2553).  In state-vector mode the Python
truthiness test `if self.measure_results:` takes the forced branch only for a
non-empty forced-outcome sequence; in density-matrix mode the state becomes
the probability-weighted sum of the non-`None` candidates over the non-zero
probabilities, and neither `probability`, `cbits`, `measure_ind` nor the
random cursor is touched. -/
def applyMeas {Q : Type} (eng : QEngine Q) (mode : SimMode) (rng : Nat → Bool)
    (m : Measurement) (st : Q) (s : SimState Q) : Except PyExc (SimState Q) :=
  match mode with
  | .stateVector =>
      match s.measure_results with
      | some mr =>
          if mr ≠ [] then
            match pyIdx mr s.measure_ind with
            | .error e => .error e
            | .ok b =>
                svFinish (eng.measureStats m st).1 (eng.measureStats m st).2 b m
                  { s with measure_ind := s.measure_ind + 1 }
          else svRandom (eng.measureStats m st).1 (eng.measureStats m st).2 rng m s
      | none => svRandom (eng.measureStats m st).1 (eng.measureStats m st).2 rng m s
  | .densityMatrix =>
      .ok { s with
            state := some (List.foldl (fun acc x => eng.addQ acc (eng.smulQ x.2 x.1))
              eng.zeroQ (((eng.measureStats m st).1.filterMap id).zip
                ((eng.measureStats m st).2.filter fun p => decide (p ≠ 0)))) }

/-- `CircuitSimulator.step` (lines 2448-2477) for the default
(`precompute_unitary=False`) compilation: dispatch on the operation kind,
then advance the step cursor. -/
def stepSim {Q : Type} (eng : QEngine Q) (mode : SimMode) (rng : Nat → Bool)
    (op : SimOp Q) (s : SimState Q) : Except PyExc (SimState Q) :=
  let inner : Except PyExc (SimState Q) :=
    match op with
    | .measure m =>
        match s.state with
        | some st => applyMeas eng mode rng m st s
        | none => .error (.typeError "measurement of a NoneType state")
    | .conditioned g u =>
        match s.cbits with
        | none => .error (.typeError "NoneType is not subscriptable")
        | some cb =>
            match cbitsAll cb g.classical_controls with
            | .error e => .error e
            | .ok true => evolveState eng mode u s
            | .ok false => .ok s
    | .unitary u => evolveState eng mode u s
  match inner with
  | .error e => .error e
  | .ok s' => .ok { s' with op_index := s'.op_index + 1 }

/-- The body of `CircuitSimulator.run` (lines 2406-2408): one `step` per
compiled operation, stopping early as soon as a step leaves a `None`
state (`if self.step() is None: break`). -/
def runOps {Q : Type} (eng : QEngine Q) (mode : SimMode) (rng : Nat → Bool) :
    List (SimOp Q) → SimState Q → Except PyExc (SimState Q)
  | [], s => .ok s
  | op :: rest, s => do
      let s' ← stepSim eng mode rng op s
      if s'.state.isNone then .ok s' else runOps eng mode rng rest s'

/-- `CircuitResult` (lines 2054-2090). -/
structure CircuitResult (Q : Type) where
  final_states : List (Option Q)
  probabilities : List ℚ
  cbits : Option (List (Option (List Nat)))
deriving DecidableEq

/-- The single-state branch of `CircuitResult.__init__` (lines 2075-2079);
`self.cbits` stays unset unless the `cbits` argument is truthy. -/
def CircuitResult.single {Q : Type} (st : Option Q) (p : ℚ)
    (cb : Option (List Nat)) : CircuitResult Q :=
  { final_states := [st]
    probabilities := [p]
    cbits :=
      match cb with
      | some l => if l ≠ [] then some [some l] else none
      | none => none }

/-- The list branch of `CircuitResult.__init__` (lines 2080-2090): keep
exactly the indices whose final state is not `None`, restricting the
probability and classical-bit lists to those indices as well. -/
def CircuitResult.ofList {Q : Type} (sts : List (Option Q)) (ps : List ℚ)
    (cbs : List (Option (List Nat))) : CircuitResult Q :=
  let inds := (List.range sts.length).filter fun i => (sts.getD i none).isSome
  { final_states := inds.map fun i => sts.getD i none
    probabilities := inds.map fun i => ps.getD i 0
    cbits := if cbs ≠ [] then some (inds.map fun i => cbs.getD i none) else none }

/-- `CircuitSimulator.run` (lines 2382-2409): re-initialize the session, step
through every compiled operation, and wrap the surviving single branch in a
`CircuitResult`. -/
def runSim {Q : Type} (eng : QEngine Q) (mode : SimMode) (ops : List (SimOp Q))
    (num_cbits : Nat) (state : Q) (cbits : Option (List Nat))
    (measure_results : Option (List Nat)) (rng : Nat → Bool) :
    Except PyExc (CircuitResult Q) :=
  (runOps eng mode rng ops (initRun eng mode num_cbits (some state) cbits measure_results)).map
    fun s => CircuitResult.single s.state s.probability s.cbits

/-- `itertools.product("01", repeat=M)` (line 2438) with the characters read
as bits: all length-`M` 0/1 sequences, rightmost position varying fastest. -/
def outcomes : Nat → List (List Nat)
  | 0 => [[]]
  | n + 1 => (outcomes n).flatMap fun l => [l ++ [0], l ++ [1]]

/-- The replay loop of `run_statistics` (lines 2438-2444): one `run` per
forced-outcome combination, collecting the final state, its probability and
the session's classical bits. -/
def runStatLoop {Q : Type} (eng : QEngine Q) (mode : SimMode)
    (ops : List (SimOp Q)) (num_cbits : Nat) (state : Q)
    (cbits : Option (List Nat)) (rng : Nat → Bool) :
    List (List Nat) →
    Except PyExc (List (Option Q) × List ℚ × List (Option (List Nat)))
  | [] => .ok ([], [], [])
  | r :: rest => do
      let s ← runOps eng mode rng ops (initRun eng mode num_cbits (some state) cbits (some r))
      let (sts, ps, cbs) ← runStatLoop eng mode ops num_cbits state cbits rng rest
      .ok (s.state :: sts, s.probability :: ps, s.cbits :: cbs)

/-- `CircuitSimulator.run_statistics` (lines 2411-2446): enumerate all
`2^M` forced-outcome combinations over the `M` measurements of the program,
replay `run` once per combination, and collect every branch into one pruned
`CircuitResult`. -/
def run_statistics {Q : Type} (eng : QEngine Q) (mode : SimMode)
    (ops : List (SimOp Q)) (qcGates : List CircuitOp) (num_cbits : Nat)
    (state : Q) (cbits : Option (List Nat)) (rng : Nat → Bool) :
    Except PyExc (CircuitResult Q) :=
  (runStatLoop eng mode ops num_cbits state cbits rng
      (outcomes (countMeasurements qcGates))).map
    fun t => CircuitResult.ofList t.1 t.2.1 t.2.2

/-! ## One-qubit matrix semantics.

The gate matrices are produced by the external `operations` module (spec §6
lists the linear-algebra engine as an external collaborator); the standard
matrices of the one-qubit gates are given here over `ℂ` in order to state
the exact-equivalence claim about `resolve_gates`.  A `GLOBALPHASE`
operation contributes its scalar factor `exp(i·θ)`.  Names denoting
multi-qubit gates cannot occur in a one-qubit program and are mapped to the
identity. -/

open Complex in
noncomputable def gateMatrix1 (g : Gate) : Matrix (Fin 2) (Fin 2) ℂ :=
  match g.name, g.arg_value with
  | .RX, some θ =>
      !![cos (θ / 2 : ℝ), -I * sin (θ / 2 : ℝ);
         -I * sin (θ / 2 : ℝ), cos (θ / 2 : ℝ)]
  | .RY, some θ =>
      !![cos (θ / 2 : ℝ), -sin (θ / 2 : ℝ);
         sin (θ / 2 : ℝ), cos (θ / 2 : ℝ)]
  | .RZ, some θ =>
      !![exp (-(θ / 2 : ℝ) * I), 0; 0, exp ((θ / 2 : ℝ) * I)]
  | .GLOBALPHASE, some θ => exp ((θ : ℝ) * I) • (1 : Matrix (Fin 2) (Fin 2) ℂ)
  | .PHASEGATE, some θ => !![1, 0; 0, exp ((θ : ℝ) * I)]
  | .X, _ => !![0, 1; 1, 0]
  | .Y, _ => !![0, -I; I, 0]
  | .Z, _ => !![1, 0; 0, -1]
  | .SNOT, _ => (Real.sqrt 2 : ℂ)⁻¹ • !![1, 1; 1, -1]
  | .SQRTNOT, _ => (2 : ℂ)⁻¹ • !![1 + I, 1 - I; 1 - I, 1 + I]
  | _, _ => 1

/-- Ordered matrix product of a one-qubit program: the gates act from left
to right, so the product is taken with each successive gate matrix
multiplied on the left. -/
noncomputable def circuitUnitary1 (ops : List CircuitOp) : Matrix (Fin 2) (Fin 2) ℂ :=
  ops.foldl
    (fun U op =>
      match op with
      | .gate g => gateMatrix1 g * U
      | .measurement _ => U) 1

/-! ## Definitions written from the spec's words, for comparison with the
code's behaviour. -/

/-- The classical-control predicate exactly as the spec words it: the
logical AND over the required bit values of the referenced classical bits,
where the required combined bit-value (an integer whose lowest bit is the
first listed classical control, per the `add_gate` docstring, lines 324-329)
defaults to all ones when not specified. -/
def specClassicalControlHolds (g : Gate) (cbits : List Nat) : Bool :=
  let v := g.classical_control_value.getD (2 ^ g.classical_controls.length - 1)
  (List.range g.classical_controls.length).all fun j =>
    decide (cbits.getD (g.classical_controls.getD j 0) 0 = v / 2 ^ j % 2)

/-- Pruning as the spec words it: walk the parallel branch lists together
and drop every entry whose final state is null, together with its
probability and classical-bit vector. -/
def pruneSpec {Q : Type} (sts : List (Option Q)) (ps : List ℚ)
    (cbs : List (Option (List Nat))) : CircuitResult Q :=
  let kept := (sts.zip (ps.zip cbs)).filter fun x => x.1.isSome
  { final_states := kept.map fun x => x.1
    probabilities := kept.map fun x => x.2.1
    cbits := if cbs ≠ [] then some (kept.map fun x => x.2.2) else none }

/-- A small concrete engine instance over `Q := ℚ`, used by the witnesses
and counterexamples: a measurement of state `q` offers the two candidate
states `q` and `q + 1` with probability `1/2` each. -/
def engQ : QEngine ℚ :=
  { applyU := fun u st => u * st
    applyDM := fun u st => u * st * u
    ket2dm := id
    isKet := fun _ => true
    measureStats := fun _ st => ([some st, some (st + 1)], [1/2, 1/2])
    zeroQ := 0
    addQ := (· + ·)
    smulQ := (· * ·) }

/-! ## Claim theorems. -/

/-- C7: both decomposition passes (`resolve_gates` and `adjacent_gates`)
fail with `SequencingError` for every input program containing at least one
`Measurement`; the check precedes basis validation and the rewrite loops, so
no output gate is emitted. -/
theorem claim_C7 (qc : QubitCircuit) (basis : BasisArg)
    (h : 0 < countMeasurements qc.gates) :
    resolve_gates qc basis = .error SequencingError ∧
    adjacent_gates qc = .error SequencingError := by
  constructor
  · unfold resolve_gates
    rw [if_pos h]
    rfl
  · unfold adjacent_gates
    rw [if_pos h]
    rfl

/-- A one-measurement program used to instantiate C7. -/
def qcMeasW : QubitCircuit :=
  { N := 1, gates := [.measurement { name := "M0", targets := [0] }] }

/-- Witness for C7 at a concrete one-measurement program. -/
theorem claim_C7_witness :
    0 < countMeasurements qcMeasW.gates ∧
    resolve_gates qcMeasW (.list [.CNOT, .RX, .RY, .RZ]) = .error SequencingError ∧
    adjacent_gates qcMeasW = .error SequencingError :=
  ⟨by decide, claim_C7 qcMeasW (.list [.CNOT, .RX, .RY, .RZ]) (by decide)⟩

/-- C10: a classical-bit list whose length differs from the declared
classical-bit count is silently ignored by `CircuitSimulator.initialize`:
the classical bits are reset to all zeros when the circuit declares
classical bits (and to the absent value otherwise), no error is raised, and
`run` consequently behaves exactly as if no list had been supplied. -/
theorem claim_C10 {Q : Type} (eng : QEngine Q) (mode : SimMode) (ncb : Nat)
    (st : Option Q) (l : List Nat) (mr : Option (List Nat))
    (h : l.length ≠ ncb) :
    (initRun eng mode ncb st (some l) mr).cbits =
      (if 0 < ncb then some (List.replicate ncb 0) else none) ∧
    initRun eng mode ncb st (some l) mr = initRun eng mode ncb st none mr ∧
    ∀ (ops : List (SimOp Q)) (state : Q) (rng : Nat → Bool),
      runSim eng mode ops ncb state (some l) mr rng =
      runSim eng mode ops ncb state none mr rng := by
  have hcond : ¬(l ≠ [] ∧ l.length = ncb) := fun hh => h hh.2
  have h2 : ∀ st' : Option Q,
      initRun eng mode ncb st' (some l) mr = initRun eng mode ncb st' none mr := by
    intro st'
    simp [initRun, hcond]
  refine ⟨by simp [initRun, hcond], h2 st, ?_⟩
  intro ops state rng
  unfold runSim
  rw [h2 (some state)]

/-- Witness for C10: a 3-entry list supplied to a 2-cbit simulator resets
the classical bits to zeros. -/
theorem claim_C10_witness :
    ([1, 2, 3] : List Nat).length ≠ 2 ∧
    (initRun engQ .stateVector 2 (some (5 : ℚ)) (some [1, 2, 3]) none).cbits =
      (if 0 < 2 then some (List.replicate 2 0) else none) :=
  ⟨by decide, (claim_C10 engQ .stateVector 2 (some 5) [1, 2, 3] none (by decide)).1⟩

/-- C5: in density-matrix mode a measurement step replaces the state with
the probability-weighted sum of the non-null candidate collapsed states over
the non-zero probabilities, advances only the step cursor, and leaves the
accumulated branch probability, the classical bits, the forced-outcome
cursor and the random cursor untouched (the `with` update names every field
that changes). -/
theorem claim_C5 {Q : Type} (eng : QEngine Q) (rng : Nat → Bool)
    (m : Measurement) (s : SimState Q) (st : Q) (h : s.state = some st) :
    stepSim eng .densityMatrix rng (.measure m) s =
      .ok { s with
            state := some ((((eng.measureStats m st).1.filterMap id).zip
                ((eng.measureStats m st).2.filter fun p => decide (p ≠ 0))).foldl
                  (fun acc x => eng.addQ acc (eng.smulQ x.2 x.1)) eng.zeroQ)
            op_index := s.op_index + 1 } := by
  simp only [stepSim, h, applyMeas]

/-- Concrete density-matrix session state used to instantiate C5. -/
def sDm : SimState ℚ :=
  { state := some 3, probability := 1, cbits := none, op_index := 0,
    measure_results := none, measure_ind := 0, rand_ind := 0 }

/-- Witness for C5 at the concrete engine `engQ` and state `sDm`. -/
theorem claim_C5_witness :
    stepSim engQ .densityMatrix (fun _ => false) (.measure { name := "M0", targets := [0] }) sDm =
      .ok { sDm with
            state := some ((((engQ.measureStats { name := "M0", targets := [0] } 3).1.filterMap id).zip
                ((engQ.measureStats { name := "M0", targets := [0] } 3).2.filter fun p => decide (p ≠ 0))).foldl
                  (fun acc x => engQ.addQ acc (engQ.smulQ x.2 x.1)) engQ.zeroQ)
            op_index := sDm.op_index + 1 } :=
  claim_C5 engQ (fun _ => false) { name := "M0", targets := [0] } sDm 3 rfl

/-- Gate with a classical control requiring bit value 0, used for C3:
`add_gate(..., classical_controls=[0], classical_control_value=0)`. -/
def gCC : Gate :=
  { name := .X, targets := [0], classical_controls := [0],
    classical_control_value := some 0 }

/-- Session state with classical bit 0 holding 0, used for C3. -/
def sCC : SimState ℚ :=
  { state := some 5, probability := 1, cbits := some [0], op_index := 0,
    measure_results := none, measure_ind := 0, rand_ind := 0 }

/-- C3 (code bug): the spec's classical-control predicate holds for a gate
requiring bit 0 to be 0 when classical bit 0 is 0, but `step`
(line 2464: `all([self.cbits[i] for i in operation.classical_controls])`)
ignores `classical_control_value` and skips the gate, leaving the state
unchanged even though applying the unitary would have changed it. -/
theorem claim_C3 :
    specClassicalControlHolds gCC [0] = true ∧
    stepSim engQ .stateVector (fun _ => false) (.conditioned gCC 2) sCC =
      .ok { sCC with op_index := 1 } ∧
    engQ.applyU 2 5 ≠ (5 : ℚ) := by
  refine ⟨by decide, by rfl, by norm_num [engQ]⟩

/-- C9: when the requested one-qubit set has exactly two of `{RX, RY, RZ}`,
the final pass of `resolve_gates` rewrites every rotation about the missing
axis into exactly three rotations about the two permitted axes — the outer
two at fixed angles `-π/2` and `+π/2`, the middle one carrying the original
angle — and passes rotations about permitted axes through unchanged. -/
theorem claim_C9 (b1 : List GName) (hlen : b1.length = 2)
    (hsub : ∀ x ∈ b1, x ∈ ([.RX, .RY, .RZ] : List GName)) (g : Gate) :
    (g.name = .RX → .RX ∉ b1 →
      eulerStep b1 g =
        [mkRot .RY g.targets (-(Real.pi / 2)),
         { name := .RZ, targets := g.targets, arg_value := g.arg_value },
         mkRot .RY g.targets (Real.pi / 2)]) ∧
    (g.name = .RY → .RY ∉ b1 →
      eulerStep b1 g =
        [mkRot .RZ g.targets (-(Real.pi / 2)),
         { name := .RX, targets := g.targets, arg_value := g.arg_value },
         mkRot .RZ g.targets (Real.pi / 2)]) ∧
    (g.name = .RZ → .RZ ∉ b1 →
      eulerStep b1 g =
        [mkRot .RX g.targets (-(Real.pi / 2)),
         { name := .RY, targets := g.targets, arg_value := g.arg_value },
         mkRot .RX g.targets (Real.pi / 2)]) ∧
    (g.name ∈ b1 → eulerStep b1 g = [g]) ∧
    eulerPass b1 [g] = eulerStep b1 g := by
  refine ⟨?_, ?_, ?_, ?_, ?_⟩
  · intro h1 h2
    simp [eulerStep, h1, h2]
  · intro h1 h2
    simp [eulerStep, h1, h2]
  · intro h1 h2
    simp [eulerStep, h1, h2]
  · intro hmem
    unfold eulerStep
    split_ifs with h1 h2 h3
    · exact absurd (h1.1 ▸ hmem) h1.2
    · exact absurd (h2.1 ▸ hmem) h2.2
    · exact absurd (h3.1 ▸ hmem) h3.2
    · rfl
  · simp [eulerPass]

/-- Witness for C9: with basis `[RX, RZ]` a `RY(1)` rotation becomes
`RZ(-π/2) · RX(1) · RZ(π/2)`. -/
theorem claim_C9_witness :
    eulerStep [GName.RX, GName.RZ] { name := .RY, targets := [0], arg_value := some 1 } =
      [mkRot .RZ [0] (-(Real.pi / 2)),
       { name := .RX, targets := [0], arg_value := some 1 },
       mkRot .RZ [0] (Real.pi / 2)] :=
  (claim_C9 [.RX, .RZ] (by decide) (by decide)
      { name := .RY, targets := [0], arg_value := some 1 }).2.1 rfl (by decide)

/-- The two valid-token buckets are disjoint. -/
theorem mem_basis2q_not_1q {g : GName} (h : g ∈ basis2qValid) :
    g ∉ basis1qValid := by
  fin_cases h <;> decide

/-- When every token is recognized, the scan succeeds and the buckets are
the order-preserving filters of the request. -/
theorem scanBasis_ok (l : List GName)
    (h : ∀ g ∈ l, g ∈ basis2qValid ∨ g ∈ basis1qValid) :
    scanBasis l = .ok (l.filter fun g => decide (g ∈ basis1qValid),
                       l.filter fun g => decide (g ∈ basis2qValid)) := by
  induction l with
  | nil => rfl
  | cons g rest ih =>
    have hrest : ∀ x ∈ rest, x ∈ basis2qValid ∨ x ∈ basis1qValid :=
      fun x hx => h x (List.mem_cons_of_mem _ hx)
    rcases h g (List.mem_cons_self ..) with h2 | h1
    · have hn1 := mem_basis2q_not_1q h2
      simp [scanBasis, h2, hn1, ih hrest, List.filter_cons, Except.map]
    · by_cases h2 : g ∈ basis2qValid
      · have hn1 := mem_basis2q_not_1q h2
        simp [scanBasis, h2, hn1, ih hrest, List.filter_cons, Except.map]
      · simp [scanBasis, h1, h2, ih hrest, List.filter_cons, Except.map]

/-- The scan stops at the first unrecognized token with the
`"... is not a valid basis gate"` error. -/
theorem scanBasis_err (pre post : List GName) (g : GName)
    (hpre : ∀ x ∈ pre, x ∈ basis2qValid ∨ x ∈ basis1qValid)
    (h2 : g ∉ basis2qValid) (h1 : g ∉ basis1qValid) :
    scanBasis (pre ++ g :: post) =
      .error (.notImplementedError (g.str ++ " is not a valid basis gate")) := by
  induction pre with
  | nil => simp [scanBasis, h2, h1]
  | cons p pre ih =>
    have hrest : ∀ x ∈ pre, x ∈ basis2qValid ∨ x ∈ basis1qValid :=
      fun x hx => hpre x (List.mem_cons_of_mem _ hx)
    rcases hpre p (List.mem_cons_self ..) with hp2 | hp1
    · simp [scanBasis, hp2, ih hrest, Except.map]
    · by_cases hp2 : p ∈ basis2qValid
      · simp [scanBasis, hp2, ih hrest, Except.map]
      · simp [scanBasis, hp1, hp2, ih hrest, Except.map]

/-- C8: for a list-shaped basis request, `resolve_gates` fails (with the
error the spec's taxonomy calls `InvalidBasisError`) when some token is
unrecognized or when the one-qubit generator subset has exactly one element,
while an empty one-qubit subset of a fully recognized request does not fail
but defaults to `{RX, RY, RZ}`; basis-validation errors propagate unchanged
through `resolve_gates` on measurement-free programs. -/
theorem claim_C8 :
    (∀ (pre post : List GName) (g : GName),
        (∀ x ∈ pre, x ∈ basis2qValid ∨ x ∈ basis1qValid) →
        g ∉ basis2qValid → g ∉ basis1qValid →
        validateBasis (.list (pre ++ g :: post)) =
          .error (.notImplementedError (g.str ++ " is not a valid basis gate"))) ∧
    (∀ l : List GName, (∀ x ∈ l, x ∈ basis2qValid ∨ x ∈ basis1qValid) →
        (l.filter fun g => decide (g ∈ basis1qValid)).length = 1 →
        validateBasis (.list l) =
          .error (.valueError "Not sufficient single-qubit gates in basis")) ∧
    (∀ l : List GName, (∀ x ∈ l, x ∈ basis2qValid ∨ x ∈ basis1qValid) →
        (l.filter fun g => decide (g ∈ basis1qValid)).length = 0 →
        validateBasis (.list l) =
          .ok ([.RX, .RY, .RZ], l.filter fun g => decide (g ∈ basis2qValid))) ∧
    (∀ (qc : QubitCircuit) (l : List GName) (e : PyExc),
        countMeasurements qc.gates = 0 →
        validateBasis (.list l) = .error e →
        resolve_gates qc (.list l) = .error e) := by
  refine ⟨?_, ?_, ?_, ?_⟩
  · intro pre post g hpre h2 h1
    simp only [validateBasis]
    rw [scanBasis_err pre post g hpre h2 h1]
  · intro l hl hlen
    simp only [validateBasis]
    rw [scanBasis_ok l hl]
    simp [hlen]
  · intro l hl hlen
    simp only [validateBasis]
    rw [scanBasis_ok l hl]
    simp [hlen, List.length_eq_zero]
  · intro qc l e hm hv
    unfold resolve_gates
    rw [hm, if_neg (Nat.lt_irrefl 0), hv]
    rfl

/-- Witness for C8: a singleton one-qubit subset fails, an unrecognized
token fails, and a request with no one-qubit tokens defaults. -/
theorem claim_C8_witness :
    validateBasis (.list [.CNOT, .RX]) =
      .error (.valueError "Not sufficient single-qubit gates in basis") ∧
    validateBasis (.list [.CNOT, .TOFFOLI, .RX]) =
      .error (.notImplementedError ("TOFFOLI" ++ " is not a valid basis gate")) ∧
    validateBasis (.list [.CNOT]) = .ok ([.RX, .RY, .RZ], [.CNOT]) :=
  ⟨claim_C8.2.1 [.CNOT, .RX] (by decide) (by decide),
   claim_C8.1 [.CNOT] [.RX] .TOFFOLI (by decide) (by decide) (by decide),
   claim_C8.2.2.1 [.CNOT] (by decide) (by decide)⟩

/-- Adjacency of every gate emitted by the control-gate window loop: the
operand pair (controls, then targets, flattened) of every emitted gate is a
pair of consecutive indices. -/
theorem adjLoopCN_adjacent (name : GName) (cEnd : Bool) (s e : Nat) :
    ∀ (fuel i : Nat) (g : Gate), g ∈ adjLoopCN name cEnd s e i fuel →
      ∀ a b : Nat, g.controls ++ g.targets = [a, b] → ((a : ℤ) - b).natAbs = 1 := by
  intro fuel
  induction fuel with
  | zero =>
    intro i g hg
    simp [adjLoopCN] at hg
  | succ n ih =>
    intro i g hg a b hab
    rw [adjLoopCN] at hg
    by_cases hie : i < e
    · rw [if_pos hie] at hg
      by_cases h1 : ((s : ℤ) + e - i - i = 1 ∧ (e - s + 1) % 2 = 0)
      · rw [if_pos h1] at hg
        rcases List.mem_cons.mp hg with hg | hg
        · cases cEnd <;> simp at hg <;> subst hg <;> simp at hab <;> omega
        · exact ih (i + 1) g hg a b hab
      · rw [if_neg h1] at hg
        by_cases h2 : ((s : ℤ) + e - i - i = 2 ∧ (e - s + 1) % 2 = 1)
        · rw [if_pos h2] at hg
          rcases List.mem_cons.mp hg with hg | hg
          · subst hg
            simp [swapG] at hab
            omega
          rcases List.mem_cons.mp hg with hg | hg
          · cases cEnd <;> simp at hg <;> subst hg <;> simp at hab <;> omega
          rcases List.mem_cons.mp hg with hg | hg
          · subst hg
            simp [swapG] at hab
            omega
          · exact ih (i + 2) g hg a b hab
        · rw [if_neg h2] at hg
          rcases List.mem_cons.mp hg with hg | hg
          · subst hg
            simp [swapG] at hab
            omega
          rcases List.mem_cons.mp hg with hg | hg
          · subst hg
            simp [swapG] at hab
            omega
          · exact ih (i + 1) g hg a b hab
    · rw [if_neg hie] at hg
      simp at hg

/-- Adjacency of every gate emitted by the symmetric-gate window loop. -/
theorem adjLoopSW_adjacent (name : GName) (s e : Nat) :
    ∀ (fuel i : Nat) (g : Gate), g ∈ adjLoopSW name s e i fuel →
      ∀ a b : Nat, g.controls ++ g.targets = [a, b] → ((a : ℤ) - b).natAbs = 1 := by
  intro fuel
  induction fuel with
  | zero =>
    intro i g hg
    simp [adjLoopSW] at hg
  | succ n ih =>
    intro i g hg a b hab
    rw [adjLoopSW] at hg
    by_cases hie : i < e
    · rw [if_pos hie] at hg
      by_cases h1 : ((s : ℤ) + e - i - i = 1 ∧ (e - s + 1) % 2 = 0)
      · rw [if_pos h1] at hg
        rcases List.mem_cons.mp hg with hg | hg
        · subst hg
          simp at hab
          omega
        · exact ih (i + 1) g hg a b hab
      · rw [if_neg h1] at hg
        by_cases h2 : ((s : ℤ) + e - i - i = 2 ∧ (e - s + 1) % 2 = 1)
        · rw [if_pos h2] at hg
          rcases List.mem_cons.mp hg with hg | hg
          · subst hg
            simp [swapG] at hab
            omega
          rcases List.mem_cons.mp hg with hg | hg
          · subst hg
            simp at hab
            omega
          rcases List.mem_cons.mp hg with hg | hg
          · subst hg
            simp [swapG] at hab
            omega
          · exact ih (i + 2) g hg a b hab
        · rw [if_neg h2] at hg
          rcases List.mem_cons.mp hg with hg | hg
          · subst hg
            simp [swapG] at hab
            omega
          rcases List.mem_cons.mp hg with hg | hg
          · subst hg
            simp [swapG] at hab
            omega
          · exact ih (i + 1) g hg a b hab
    · rw [if_neg hie] at hg
      simp at hg

/-- Adjacency of every gate emitted by the per-gate dispatch. -/
theorem adjacentStep_adjacent (g0 : Gate) (l : List Gate)
    (h : adjacentStep g0 = .ok l) :
    ∀ g ∈ l, ∀ a b : Nat, g.controls ++ g.targets = [a, b] →
      ((a : ℤ) - b).natAbs = 1 := by
  intro g hg a b hab
  unfold adjacentStep at h
  by_cases hn : g0.name = .CNOT ∨ g0.name = .CSIGN
  · rw [if_pos hn] at h
    cases ht : g0.targets.get? 0 <;> rw [ht] at h
    · cases hc : g0.controls.get? 0 <;> rw [hc] at h <;> cases h
    · cases hc : g0.controls.get? 0 <;> rw [hc] at h
      · cases h
      · cases h
        exact adjLoopCN_adjacent g0.name _ _ _ _ _ g hg a b hab
  · rw [if_neg hn] at h
    by_cases hs : g0.name ∈ swapGates
    · rw [if_pos hs] at h
      cases ht : g0.targets.get? 0 <;> rw [ht] at h
      · cases ht1 : g0.targets.get? 1 <;> rw [ht1] at h <;> cases h
      · cases ht1 : g0.targets.get? 1 <;> rw [ht1] at h
        · cases h
        · cases h
          exact adjLoopSW_adjacent g0.name _ _ _ _ g hg a b hab
    · rw [if_neg hs] at h
      cases h

/-- Adjacency of every gate produced by the full `adjacent_gates` loop. -/
theorem adjAll_adjacent (ops : List CircuitOp) (gs : List Gate)
    (h : adjAll ops = .ok gs) :
    ∀ g ∈ gs, ∀ a b : Nat, g.controls ++ g.targets = [a, b] →
      ((a : ℤ) - b).natAbs = 1 := by
  induction ops generalizing gs with
  | nil =>
    cases h
    intro g hg
    simp at hg
  | cons op rest ih =>
    cases op with
    | measurement m =>
      cases h
    | gate g0 =>
      unfold adjAll at h
      cases hseg : adjacentStep g0 <;> rw [hseg] at h
      · cases h
      · cases hrest : adjAll rest <;> rw [hrest] at h
        · cases h
        · cases h
          intro g hg a b hab
          rcases List.mem_append.mp hg with hg | hg
          · exact adjacentStep_adjacent g0 _ hseg g hg a b hab
          · exact ih _ hrest g hg a b hab

/-- C2: for every input program accepted by `adjacent_gates`, every gate of
the returned circuit whose flattened operand list (controls then targets) is
a pair acts on two qubit indices whose difference is exactly 1.  (Every
emitted entry is a `CNOT`/`CSIGN` with one control and one target or a
symmetric two-qubit gate with two targets, so this covers every two-qubit
gate of the output.) -/
theorem claim_C2 (qc out : QubitCircuit) (h : adjacent_gates qc = .ok out) :
    ∀ g : Gate, CircuitOp.gate g ∈ out.gates →
      ∀ a b : Nat, g.controls ++ g.targets = [a, b] →
        ((a : ℤ) - b).natAbs = 1 := by
  intro g hg a b hab
  unfold adjacent_gates at h
  by_cases hm : 0 < countMeasurements qc.gates
  · rw [if_pos hm] at h
    cases h
  · rw [if_neg hm] at h
    cases hall : adjAll qc.gates <;> rw [hall] at h
    · cases h
    · cases h
      rcases List.mem_map.mp hg with ⟨g', hg', heq⟩
      injection heq with heq'
      subst heq'
      exact adjAll_adjacent qc.gates _ hall g' hg' a b hab

/-- A distant CNOT used to instantiate C2. -/
def qcAdjW : QubitCircuit := { N := 4, gates := [.gate (mkCNOT [3] [0])] }

/-- The circuit `adjacent_gates` produces for `qcAdjW`. -/
def qcAdjWout : QubitCircuit :=
  { N := 4
    gates :=
      [.gate (swapG 0 1), .gate (swapG 2 3),
       .gate { name := .CNOT, targets := [2], controls := [1] },
       .gate (swapG 2 3), .gate (swapG 0 1)]
    num_cbits := 0 }

/-- Witness for C2 at the concrete program `qcAdjW`. -/
theorem claim_C2_witness :
    adjacent_gates qcAdjW = .ok qcAdjWout ∧ ((1 : ℤ) - 2).natAbs = 1 :=
  ⟨rfl,
   claim_C2 qcAdjW qcAdjWout rfl { name := .CNOT, targets := [2], controls := [1] }
     (by simp [qcAdjWout]) 1 2 rfl⟩

/-- Reduction of an `Except` bind on a success value. -/
theorem exceptOkBind {ε α β : Type} (a : α) (f : α → Except ε β) :
    (Except.ok a >>= f) = f a := rfl

/-- Inversion of a successful `Except` bind. -/
theorem exceptBind_ok {ε α β : Type} {x : Except ε α} {f : α → Except ε β}
    {b : β} (h : x >>= f = .ok b) : ∃ a, x = .ok a ∧ f a = .ok b := by
  cases x with
  | error e =>
    have hred : (Except.error e >>= f) = (Except.error e : Except ε β) := rfl
    rw [hred] at h
    cases h
  | ok a => exact ⟨a, rfl, h⟩

/-- The state-vector measurement tail never touches the forced-outcome
sequence. -/
theorem svFinish_mr {Q : Type} (sts : List (Option Q)) (ps : List ℚ) (i : Nat)
    (m : Measurement) (s s' : SimState Q) (h : svFinish sts ps i m s = .ok s') :
    s'.measure_results = s.measure_results := by
  unfold svFinish at h
  split at h
  · cases h
  · split at h
    · cases h
    · split at h
      · cases h
        rfl
      · split at h
        · cases h
        · split at h
          · cases h
            rfl
          · cases h

/-- `evolveState` never touches the forced-outcome sequence. -/
theorem evolveState_mr {Q : Type} (eng : QEngine Q) (mode : SimMode) (u : Q)
    (s t : SimState Q) (h : evolveState eng mode u s = .ok t) :
    t.measure_results = s.measure_results := by
  unfold evolveState at h
  split at h
  · cases h
  · cases h
    rfl

/-- `_apply_measurement` never touches the forced-outcome sequence. -/
theorem applyMeas_mr {Q : Type} (eng : QEngine Q) (mode : SimMode)
    (rng : Nat → Bool) (m : Measurement) (st : Q) (s t : SimState Q)
    (h : applyMeas eng mode rng m st s = .ok t) :
    t.measure_results = s.measure_results := by
  cases mode with
  | stateVector =>
    unfold applyMeas svRandom at h
    split at h
    all_goals try split at h
    all_goals try split at h
    all_goals try split at h
    all_goals first
      | (have h2 := svFinish_mr _ _ _ _ _ _ h
         exact h2)
      | cases h
    all_goals rfl
  | densityMatrix =>
    unfold applyMeas at h
    cases h
    rfl

/-- A successful `step` never changes the forced-outcome sequence. -/
theorem stepSim_mr {Q : Type} (eng : QEngine Q) (mode : SimMode)
    (rng : Nat → Bool) (op : SimOp Q) (s s' : SimState Q)
    (h : stepSim eng mode rng op s = .ok s') :
    s'.measure_results = s.measure_results := by
  simp only [stepSim] at h
  split at h
  · cases h
  · rename_i t heq
    cases h
    show t.measure_results = s.measure_results
    cases op with
    | unitary u => exact evolveState_mr eng mode u s t heq
    | conditioned g u =>
      cases hcb : s.cbits with
      | none =>
        simp only [hcb] at heq
        cases heq
      | some cb =>
        simp only [hcb] at heq
        cases hall : cbitsAll cb g.classical_controls with
        | error e =>
          simp only [hall] at heq
          cases heq
        | ok b =>
          simp only [hall] at heq
          cases b
          · simp only [] at heq
            cases heq
            rfl
          · exact evolveState_mr eng mode u s t heq
    | measure m =>
      cases hst : s.state with
      | none =>
        simp only [hst] at heq
        cases heq
      | some st2 =>
        simp only [hst] at heq
        exact applyMeas_mr eng mode rng m st2 s t heq

/-- With a non-empty forced-outcome sequence in place, `step` never consults
the random source. -/
theorem stepSim_forced_rng {Q : Type} (eng : QEngine Q) (mode : SimMode)
    (rng1 rng2 : Nat → Bool) (op : SimOp Q) (s : SimState Q) (fs : List Nat)
    (hmr : s.measure_results = some fs) (hfs : fs ≠ []) :
    stepSim eng mode rng1 op s = stepSim eng mode rng2 op s := by
  cases op with
  | unitary u => rfl
  | conditioned g u => rfl
  | measure m =>
    cases hst : s.state with
    | none => simp only [stepSim, hst]
    | some st2 =>
      cases mode with
      | stateVector => simp only [stepSim, applyMeas, hst, hmr, hfs, ne_eq,
          not_false_eq_true, if_true, ite_true]
      | densityMatrix => simp only [stepSim, applyMeas, hst]

/-- With a non-empty forced-outcome sequence, the whole run is independent
of the random source. -/
theorem runOps_forced {Q : Type} (eng : QEngine Q) (mode : SimMode)
    (rng1 rng2 : Nat → Bool) (ops : List (SimOp Q)) (fs : List Nat)
    (hfs : fs ≠ []) :
    ∀ s : SimState Q, s.measure_results = some fs →
      runOps eng mode rng1 ops s = runOps eng mode rng2 ops s := by
  induction ops with
  | nil => intro s _; rfl
  | cons op rest ih =>
    intro s hmr
    unfold runOps
    rw [stepSim_forced_rng eng mode rng1 rng2 op s fs hmr hfs]
    cases hstep : stepSim eng mode rng2 op s with
    | error e => rfl
    | ok s' =>
      show (if s'.state.isNone then Except.ok s' else runOps eng mode rng1 rest s') =
        (if s'.state.isNone then Except.ok s' else runOps eng mode rng2 rest s')
      by_cases hnone : s'.state.isNone
      · rw [if_pos hnone, if_pos hnone]
      · rw [if_neg hnone, if_neg hnone]
        exact ih s' ((stepSim_mr eng mode rng2 op s s' hstep).trans hmr)

/-- C6 (amended): two `run` calls with the same non-empty forced-outcome
sequence, initial state and initial classical bits return identical results
whatever the random source supplies — no randomness is consumed.  (The
non-emptiness proviso is forced by Python's truthiness test
`if self.measure_results:`, see the counterexample.) -/
theorem claim_C6 {Q : Type} (eng : QEngine Q) (mode : SimMode)
    (ops : List (SimOp Q)) (ncb : Nat) (state : Q) (cbits : Option (List Nat))
    (fs : List Nat) (hfs : fs ≠ []) (rng1 rng2 : Nat → Bool) :
    runSim eng mode ops ncb state cbits (some fs) rng1 =
    runSim eng mode ops ncb state cbits (some fs) rng2 := by
  unfold runSim
  rw [runOps_forced eng mode rng1 rng2 ops fs hfs
    (initRun eng mode ncb (some state) cbits (some fs)) rfl]

/-- Witness for C6 at a concrete forced run. -/
theorem claim_C6_witness :
    runSim engQ .stateVector [.measure { name := "M0", targets := [0] }] 0 (5 : ℚ)
      none (some [0]) (fun _ => false) =
    runSim engQ .stateVector [.measure { name := "M0", targets := [0] }] 0 (5 : ℚ)
      none (some [0]) (fun _ => true) :=
  claim_C6 engQ .stateVector [.measure { name := "M0", targets := [0] }] 0 5 none
    [0] (by decide) (fun _ => false) (fun _ => true)

/-- Counterexample to C6 as stated: supplying an *empty* forced-outcome
sequence (`measure_results=()`) is treated as no forcing by the truthiness
test at line 2535, so the run consumes randomness and two calls with
identical inputs but different random draws disagree. -/
theorem claim_C6_counterexample :
    runSim engQ .stateVector [.measure { name := "M0", targets := [0] }] 0 (5 : ℚ)
      none (some []) (fun _ => false) ≠
    runSim engQ .stateVector [.measure { name := "M0", targets := [0] }] 0 (5 : ℚ)
      none (some []) (fun _ => true) := by
  intro h
  simp [runSim, runOps, stepSim, applyMeas, svRandom, svFinish, initRun, pyIdx,
    CircuitResult.single, engQ, Except.map, exceptOkBind] at h

/-- `outcomes M` has exactly `2 ^ M` entries. -/
theorem outcomes_length (M : Nat) : (outcomes M).length = 2 ^ M := by
  induction M with
  | zero => rfl
  | succ n ih =>
    simp only [outcomes, List.length_flatMap, Function.comp_def, List.length_cons,
      List.length_nil, Nat.reduceAdd]
    rw [List.map_const', List.sum_replicate, smul_eq_mul, ih]
    ring

/-- `outcomes M` enumerates exactly the length-`M` 0/1 sequences. -/
theorem mem_outcomes (M : Nat) :
    ∀ c, c ∈ outcomes M ↔ c.length = M ∧ ∀ b ∈ c, b = 0 ∨ b = 1 := by
  induction M with
  | zero =>
    intro c
    simp only [outcomes, List.mem_singleton]
    constructor
    · rintro rfl
      simp
    · rintro ⟨hc, _⟩
      exact List.length_eq_zero.mp hc
  | succ n ih =>
    intro c
    simp only [outcomes, List.mem_flatMap]
    constructor
    · rintro ⟨l, hl, hc⟩
      rcases (ih l).mp hl with ⟨hlen, hbits⟩
      simp only [List.mem_cons, List.mem_singleton] at hc
      rcases hc with rfl | rfl | hfalse
      · refine ⟨by simp [hlen], ?_⟩
        intro b hb
        rcases List.mem_append.mp hb with hb | hb
        · exact hbits b hb
        · simp at hb
          exact Or.inl hb
      · refine ⟨by simp [hlen], ?_⟩
        intro b hb
        rcases List.mem_append.mp hb with hb | hb
        · exact hbits b hb
        · simp at hb
          exact Or.inr hb
      · cases hfalse
    · rintro ⟨hlen, hbits⟩
      have hne : c ≠ [] := by
        intro hc
        rw [hc] at hlen
        cases hlen
      refine ⟨c.dropLast, ?_, ?_⟩
      · refine (ih c.dropLast).mpr ⟨?_, ?_⟩
        · rw [List.length_dropLast, hlen]
          rfl
        · intro b hb
          exact hbits b (List.dropLast_subset c hb)
      · have hsplit := List.dropLast_append_getLast hne
        rcases hbits (c.getLast hne) (List.getLast_mem hne) with h0 | h0
        · rw [← hsplit, h0]
          simp
        · rw [← hsplit, h0]
          simp

/-- `outcomes M` has no duplicate combinations. -/
theorem outcomes_nodup (M : Nat) : (outcomes M).Nodup := by
  induction M with
  | zero => simp [outcomes]
  | succ n ih =>
    simp only [outcomes]
    rw [List.nodup_flatMap]
    refine ⟨?_, ?_⟩
    · intro l _
      simp
    · refine ih.imp fun hne => ?_
      intro c hc1 hc2
      simp only [Function.onFun, List.mem_cons, List.mem_singleton,
        List.not_mem_nil, or_false] at hc1 hc2
      rcases hc1 with rfl | rfl <;> rcases hc2 with heq | heq
      · exact hne (List.append_inj' heq rfl).1
      · have h01 := (List.append_inj' heq rfl).2
        simp at h01
      · have h01 := (List.append_inj' heq rfl).2
        simp at h01
      · exact hne (List.append_inj' heq rfl).1

/-- The index-filtering prune of `CircuitResult.__init__` agrees with
zipping the three parallel lists and filtering on the state entry. -/
theorem pruneZip {Q : Type} :
    ∀ (sts : List (Option Q)) (ps : List ℚ) (cbs : List (Option (List Nat))),
      sts.length = ps.length → sts.length = cbs.length →
      ((List.range sts.length).filter fun i => (sts.getD i none).isSome).map
          (fun i => (sts.getD i none, ps.getD i 0, cbs.getD i none)) =
        (sts.zip (ps.zip cbs)).filter fun x => x.1.isSome := by
  intro sts
  induction sts with
  | nil =>
    intro ps cbs h1 h2
    rfl
  | cons st sts ih =>
    intro ps cbs h1 h2
    cases ps with
    | nil => cases h1
    | cons p ps =>
      cases cbs with
      | nil => cases h2
      | cons cb cbs =>
        have h1' : sts.length = ps.length := by simpa using h1
        have h2' : sts.length = cbs.length := by simpa using h2
        have hih := ih ps cbs h1' h2'
        cases hs : st.isSome with
        | true =>
          obtain ⟨v, rfl⟩ := Option.isSome_iff_exists.mp hs
          simp only [List.length_cons, List.range_succ_eq_map, List.filter_cons,
            List.getD_cons_zero, Option.isSome_some, reduceIte, List.map_cons,
            List.zip_cons_cons, List.filter_map, List.map_map, Function.comp_def,
            Nat.succ_eq_add_one, List.getD_cons_succ]
          rw [hih]
        | false =>
          have hnone : st = none := Option.not_isSome_iff_eq_none.mp (by simp [hs])
          subst hnone
          simp only [List.length_cons, List.range_succ_eq_map, List.filter_cons,
            List.getD_cons_zero, Option.isSome_none, Bool.false_eq_true, reduceIte,
            List.zip_cons_cons, List.filter_map, List.map_map, Function.comp_def,
            Nat.succ_eq_add_one, List.getD_cons_succ]
          exact hih

/-- The list branch of `CircuitResult.__init__` performs exactly the
spec-side pruning when the three branch lists are parallel. -/
theorem ofList_eq_pruneSpec {Q : Type} (sts : List (Option Q)) (ps : List ℚ)
    (cbs : List (Option (List Nat))) (h1 : sts.length = ps.length)
    (h2 : sts.length = cbs.length) :
    CircuitResult.ofList sts ps cbs = pruneSpec sts ps cbs := by
  have key := pruneZip sts ps cbs h1 h2
  have e1 : ((List.range sts.length).filter fun i => (sts.getD i none).isSome).map
      (fun i => sts.getD i none) =
      ((sts.zip (ps.zip cbs)).filter fun x => x.1.isSome).map (fun x => x.1) := by
    rw [← key, List.map_map]
    rfl
  have e2 : ((List.range sts.length).filter fun i => (sts.getD i none).isSome).map
      (fun i => ps.getD i 0) =
      ((sts.zip (ps.zip cbs)).filter fun x => x.1.isSome).map (fun x => x.2.1) := by
    rw [← key, List.map_map]
    rfl
  have e3 : ((List.range sts.length).filter fun i => (sts.getD i none).isSome).map
      (fun i => cbs.getD i none) =
      ((sts.zip (ps.zip cbs)).filter fun x => x.1.isSome).map (fun x => x.2.2) := by
    rw [← key, List.map_map]
    rfl
  unfold CircuitResult.ofList pruneSpec
  simp only [CircuitResult.mk.injEq]
  exact ⟨e1, e2, by rw [e3]⟩

/-- Each entry of the `run_statistics` replay loop collects exactly the
final state and probability that `run` reports for that forced-outcome
combination. -/
theorem runStatLoop_one {Q : Type} (eng : QEngine Q) (mode : SimMode)
    (ops : List (SimOp Q)) (ncb : Nat) (state : Q) (cb : Option (List Nat))
    (rng : Nat → Bool) (r : List Nat) :
    (runStatLoop eng mode ops ncb state cb rng [r]).map (fun t => (t.1, t.2.1)) =
      (runSim eng mode ops ncb state cb (some r) rng).map
        (fun cr => (cr.final_states, cr.probabilities)) := by
  unfold runStatLoop runSim
  cases hr : runOps eng mode rng ops (initRun eng mode ncb (some state) cb (some r)) with
  | error e => rfl
  | ok s => rfl

/-- The replay loop returns one entry per forced-outcome combination. -/
theorem runStatLoop_length {Q : Type} (eng : QEngine Q) (mode : SimMode)
    (ops : List (SimOp Q)) (ncb : Nat) (state : Q) (cb : Option (List Nat))
    (rng : Nat → Bool) :
    ∀ (rs : List (List Nat)) t,
      runStatLoop eng mode ops ncb state cb rng rs = .ok t →
      t.1.length = rs.length ∧ t.2.1.length = rs.length ∧ t.2.2.length = rs.length := by
  intro rs
  induction rs with
  | nil =>
    intro t h
    cases h
    exact ⟨rfl, rfl, rfl⟩
  | cons r rest ih =>
    intro t h
    unfold runStatLoop at h
    obtain ⟨s, hs, h⟩ := exceptBind_ok h
    obtain ⟨t3, ht3, h⟩ := exceptBind_ok h
    obtain ⟨h1, h2, h3⟩ := ih t3 ht3
    cases t3 with
    | mk a bc =>
      cases bc with
      | mk b c =>
        cases h
        refine ⟨?_, ?_, ?_⟩
        · simpa using h1
        · simpa using h2
        · simpa using h3

/-- C4: `run_statistics` performs exactly `2^M` replays of `run`, one per
0/1 combination over the `M` measurements of the program (each combination
appearing exactly once as the forced-outcome sequence), and collects all
branches into one `CircuitResult` in which every entry with a null final
state is pruned together with its probability and classical-bit vector. -/
theorem claim_C4 {Q : Type} (eng : QEngine Q) (mode : SimMode)
    (ops : List (SimOp Q)) (qcGates : List CircuitOp) (ncb : Nat) (state : Q)
    (cb : Option (List Nat)) (rng : Nat → Bool) :
    (outcomes (countMeasurements qcGates)).length = 2 ^ countMeasurements qcGates ∧
    (outcomes (countMeasurements qcGates)).Nodup ∧
    (∀ c, c ∈ outcomes (countMeasurements qcGates) ↔
      (c.length = countMeasurements qcGates ∧ ∀ b ∈ c, b = 0 ∨ b = 1)) ∧
    run_statistics eng mode ops qcGates ncb state cb rng =
      (runStatLoop eng mode ops ncb state cb rng
          (outcomes (countMeasurements qcGates))).map
        (fun t => CircuitResult.ofList t.1 t.2.1 t.2.2) ∧
    (∀ r, (runStatLoop eng mode ops ncb state cb rng [r]).map (fun t => (t.1, t.2.1)) =
      (runSim eng mode ops ncb state cb (some r) rng).map
        (fun cr => (cr.final_states, cr.probabilities))) ∧
    (∀ rs t, runStatLoop eng mode ops ncb state cb rng rs = .ok t →
      t.1.length = rs.length ∧ t.2.1.length = rs.length ∧ t.2.2.length = rs.length) ∧
    (∀ (sts : List (Option Q)) ps cbs, sts.length = ps.length →
      sts.length = cbs.length →
      CircuitResult.ofList sts ps cbs = pruneSpec sts ps cbs) :=
  ⟨outcomes_length _, outcomes_nodup _, mem_outcomes _, rfl,
   runStatLoop_one eng mode ops ncb state cb rng,
   runStatLoop_length eng mode ops ncb state cb rng,
   fun sts ps cbs h1 h2 => ofList_eq_pruneSpec sts ps cbs h1 h2⟩

/-- Witness for C4: the pruning conjunct at a concrete triple with one null
state, and the enumeration conjunct at a concrete combination. -/
theorem claim_C4_witness :
    CircuitResult.ofList [some (3 : ℚ), none] [1/2, 1/2] [some [0], some [1]] =
      pruneSpec [some (3 : ℚ), none] [1/2, 1/2] [some [0], some [1]] ∧
    ([0, 1] ∈ outcomes 2 ↔ (([0, 1] : List Nat).length = 2 ∧ ∀ b ∈ ([0, 1] : List Nat), b = 0 ∨ b = 1)) :=
  ⟨(claim_C4 engQ .stateVector [] [] 0 0 none (fun _ => false)).2.2.2.2.2.2
      [some 3, none] [1/2, 1/2] [some [0], some [1]] rfl rfl,
   (claim_C4 engQ .stateVector []
      [.measurement { name := "M0", targets := [0] },
       .measurement { name := "M1", targets := [1] }] 0 0 none (fun _ => false)).2.2.1 [0, 1]⟩

/-- A bare Pauli `X` gate on qubit 0. -/
def gX : Gate := { name := .X, targets := [0] }

/-- The one-qubit unitary-only program holding a single Pauli `X`. -/
def qcX : QubitCircuit := { N := 1, gates := [.gate gX] }

/-- Reading off `gateMatrix1` at an `RX` rotation. -/
theorem gateMatrix1_RX (t : List Nat) (θ : ℝ) :
    gateMatrix1 (mkRot .RX t θ) =
      !![Complex.cos ((θ / 2 : ℝ) : ℂ), -Complex.I * Complex.sin ((θ / 2 : ℝ) : ℂ);
         -Complex.I * Complex.sin ((θ / 2 : ℝ) : ℂ), Complex.cos ((θ / 2 : ℝ) : ℂ)] := rfl

/-- Reading off `gateMatrix1` at a `GLOBALPHASE`. -/
theorem gateMatrix1_GP (θ : ℝ) :
    gateMatrix1 (mkGP θ) = Complex.exp ((θ : ℂ) * Complex.I) • 1 := rfl

/-- Reading off `gateMatrix1` at the Pauli `X`. -/
theorem gateMatrix1_X : gateMatrix1 gX = !![0, 1; 1, 0] := rfl

/-- The scalar phase `e^{iπ/2}` is `i`. -/
theorem exp_pi_div_two_I :
    Complex.exp (((Real.pi / 2 : ℝ) : ℂ) * Complex.I) = Complex.I := by
  rw [Complex.exp_mul_I, ← Complex.ofReal_cos, ← Complex.ofReal_sin,
    Real.cos_pi_div_two, Real.sin_pi_div_two]
  simp

/-- The matrix of `RX(π)` is `-i·X`, not `X`. -/
theorem rxPiMatrix :
    gateMatrix1 (mkRot .RX [0] Real.pi) = -Complex.I • !![0, 1; 1, 0] := by
  rw [gateMatrix1_RX, ← Complex.ofReal_cos, ← Complex.ofReal_sin,
    Real.cos_pi_div_two, Real.sin_pi_div_two]
  ext i j
  fin_cases i <;> fin_cases j <;> simp

/-- C1: refuted at the `X` gate with target basis `["CNOT","RX","RY","RZ"]`.
The `X`/`Y`/`Z` pre-pass appends a `GLOBALPHASE(π/2)` phase correction to
`qc_temp.gates`, but when the two-qubit basis needs no conversion the
assignment `qc_temp.gates = temp_resolved` (line 1496) discards it: the
emitted sequence is the bare `RX(π)`, whose matrix is `-i·X ≠ X`.  On a
basis that does trigger a conversion (here `CSIGN`) the phase survives at
the front of the output and the ordered product equals `X` exactly. -/
theorem claim_C1 :
    resolve_gates qcX (.list [.CNOT, .RX, .RY, .RZ]) =
      .ok { N := 1, gates := [.gate (mkRot .RX [0] Real.pi)], num_cbits := 0 } ∧
    circuitUnitary1 [.gate (mkRot .RX [0] Real.pi)] ≠ gateMatrix1 gX ∧
    resolve_gates qcX (.list [.CSIGN, .RX, .RY, .RZ]) =
      .ok { N := 1,
            gates := [.gate (mkGP (Real.pi / 2)), .gate (mkRot .RX [0] Real.pi)],
            num_cbits := 0 } ∧
    circuitUnitary1 [.gate (mkGP (Real.pi / 2)), .gate (mkRot .RX [0] Real.pi)] =
      gateMatrix1 gX := by
  refine ⟨rfl, ?_, rfl, ?_⟩
  · intro h
    have h01 : circuitUnitary1 [.gate (mkRot .RX [0] Real.pi)] 0 1 =
        gateMatrix1 gX 0 1 := by rw [h]
    have hL : circuitUnitary1 [.gate (mkRot .RX [0] Real.pi)] =
        -Complex.I • !![0, 1; 1, 0] := by
      show gateMatrix1 (mkRot .RX [0] Real.pi) * 1 = _
      rw [mul_one, rxPiMatrix]
    rw [hL, gateMatrix1_X] at h01
    simp [Complex.ext_iff] at h01
  · show gateMatrix1 (mkRot .RX [0] Real.pi) * (gateMatrix1 (mkGP (Real.pi / 2)) * 1) = _
    rw [mul_one, gateMatrix1_GP, exp_pi_div_two_I, Matrix.mul_smul, Matrix.mul_one,
      rxPiMatrix, smul_smul, gateMatrix1_X]
    rw [show Complex.I * -Complex.I = 1 by rw [mul_neg, Complex.I_mul_I, neg_neg]]
    rw [one_smul]

end QutipQip
